import Mathlib

/-!
Verification of the HAN trainer flow (`openhgnn/trainerflow/han_trainer.py`).

The development shallowly embeds the training/evaluation orchestration of the
`HAN` flow class: the mini-batch training step (`_mini_train_step`), the
full-batch and mini-batch evaluation steps (`_full_test_step`,
`_mini_test_step`), the prediction steps (`_full_prediction_step`,
`_mini_prediction_step`), the constructor's output-dimension reconciliation
(`__init__`), and the epoch loop of `train` together with the early-stopping
state machine.

Scalar tensor values (losses, logits) are modelled as rationals, node
identifiers as naturals, labels as integers.  The learnable model, the loss
function and the metric evaluator are external collaborators and enter the
embedding as opaque function parameters; the data loaders enter as the
concrete batch sequences they yield during one traversal.
-/

namespace HanTrainer

/-- One mini-batch as produced by the sampler-backed data loader: the seed
nodes of the `category` node type (`seeds[self.category]` in the source).
The per-metapath block structure is determined by the seed set and is folded
into the opaque model function below. -/
structure MiniBatch where
  seeds : List Nat
deriving Repr, DecidableEq

/-- A mini-batch model: given the seed list of a batch (standing for the
sampled block built from those seeds) and a seed node, it returns that node's
logit row.  `self.model(block_dict, emb_dict)[self.category]` produces one
output row per seed node of the batch. -/
abbrev MModel := List Nat → Nat → List ℚ

/-- A full-graph model: `self.model(self.hg, h_dict)[self.category]` gives a
logit row for every node of the category type. -/
abbrev FModel := Nat → List ℚ

/-- The label vector `self.labels`, indexed by node identifier. -/
abbrev Labels := Nat → ℤ

/-- The loss function `self.loss_fn`, taking a logits matrix and a label
vector to a scalar. -/
abbrev LossFn := List (List ℚ) → List ℤ → ℚ

/-- A metric evaluator (`self.task.get_evaluator(name='f1')`), applied to
true labels and predicted class indices. -/
abbrev Evaluator := List ℤ → List Nat → ℚ

/-- Scan for the index of the maximal entry: `bi`/`bv` track the best index
and value so far, `i` is the index of the head of the remaining list. -/
def argmaxFrom (bi : Nat) (bv : ℚ) (i : Nat) : List ℚ → Nat
  | [] => bi
  | y :: ys => if bv < y then argmaxFrom i y (i + 1) ys else argmaxFrom bi bv (i + 1) ys

/-- `torch.argmax` over one logit row: index of the first maximal entry. -/
def argmaxIdx : List ℚ → Nat
  | [] => 0
  | x :: xs => argmaxFrom 0 x 1 xs

/-- Logits the model produces for one batch: one row per seed node. -/
def batchLogits (m : MModel) (b : MiniBatch) : List (List ℚ) :=
  b.seeds.map (m b.seeds)

/-- Labels of a batch's seed nodes: `self.labels[seeds]`. -/
def batchLabels (lab : Labels) (b : MiniBatch) : List ℤ :=
  b.seeds.map lab

/-- The loss the source computes for one batch:
`self.loss_fn(logits, lbl)` with `logits = model(block)[category]` and
`lbl = labels[seeds]`. -/
def batchLoss (m : MModel) (lab : Labels) (lossFn : LossFn) (b : MiniBatch) : ℚ :=
  lossFn (batchLogits m b) (batchLabels lab b)

/-- Per-batch losses of one epoch of `_mini_train_step`, at the evolving
parameter state: `lossAt p b` is `loss.item()` for batch `b` at parameters
`p`, and `step p b` is the parameter state after `optimizer.step()` on that
batch. -/
def lossSeq {P : Type} (lossAt : P → MiniBatch → ℚ) (step : P → MiniBatch → P)
    (p : P) : List MiniBatch → List ℚ
  | [] => []
  | b :: bs => lossAt p b :: lossSeq lossAt step (step p b) bs

/-- `_mini_train_step`: iterate the train loader, accumulate
`loss_all += loss.item()`, update the parameters after each batch, and return
`loss_all / (i + 1)` where `i + 1` is the number of batches, together with
the final parameter state. -/
def miniTrainStep {P : Type} (lossAt : P → MiniBatch → ℚ) (step : P → MiniBatch → P)
    (p0 : P) (batches : List MiniBatch) : ℚ × P :=
  let r := batches.foldl (fun (acc : ℚ × P) b => (acc.1 + lossAt acc.2 b, step acc.2 b)) (0, p0)
  (r.1 / (batches.length : ℚ), r.2)

/-- Accumulator state of `_mini_test_step`: the running scalar `loss_all`
(initialised once, before the loop over modes), and the metric and loss
dictionaries, represented as association lists in insertion order. -/
structure EvalAcc where
  lossAll : ℚ
  metricDict : List (String × ℚ)
  lossDict : List (String × ℚ)
deriving Repr, DecidableEq

/-- State threaded through the batch loop of one mode in `_mini_test_step`:
`(loss_all, y_trues concatenated, y_predicts concatenated, loss)` where the
last component is the loss variable, holding the most recent batch's loss. -/
abbrev ModeLoopState := ℚ × List ℤ × List (List ℚ) × ℚ

/-- One iteration of the batch loop of `_mini_test_step`. -/
def modeLoopBody (m : MModel) (lab : Labels) (lossFn : LossFn)
    (s : ModeLoopState) (b : MiniBatch) : ModeLoopState :=
  let logits := batchLogits m b
  let lbl := batchLabels lab b
  let loss := lossFn logits lbl
  (s.1 + loss, s.2.1 ++ lbl, s.2.2.1 ++ logits, loss)

/-- The body of the `for mode in modes` loop of `_mini_test_step`: traverse
the mode's loader accumulating into the shared `loss_all` (not reset between
modes), divide `loss_all` by the batch count, invoke the evaluator once on
the concatenated labels and predictions, and record
`loss_dict[mode] = loss` — the last batch's loss variable. -/
def processMode (m : MModel) (lab : Labels) (lossFn : LossFn) (ev : Evaluator)
    (loaders : String → List MiniBatch) (acc : EvalAcc) (mode : String) : EvalAcc :=
  let batches := loaders mode
  let r := batches.foldl (modeLoopBody m lab lossFn) (acc.lossAll, [], [], 0)
  { lossAll := r.1 / (batches.length : ℚ)
    metricDict := acc.metricDict ++ [(mode, ev r.2.1 (r.2.2.1.map argmaxIdx))]
    lossDict := acc.lossDict ++ [(mode, r.2.2.2)] }

/-- `_mini_test_step(modes)`: returns `(metric_dict, loss_dict)`.  `loaders`
gives, per mode name, the batch sequence the corresponding data loader yields
during this call (the loaders are constructed with `shuffle=True`, so the
sequence is not stable across calls). -/
def miniTestStep (m : MModel) (lab : Labels) (lossFn : LossFn) (ev : Evaluator)
    (loaders : String → List MiniBatch) (modes : List String) :
    List (String × ℚ) × List (String × ℚ) :=
  let r := modes.foldl (processMode m lab lossFn ev loaders) ⟨0, [], []⟩
  (r.metricDict, r.lossDict)

/-- Score `_mini_test_step` assigns to one mode: a single evaluator call on
the concatenation, in batch-yield order, of the mode's per-batch labels and
per-batch predictions. -/
def modeScore (m : MModel) (lab : Labels) (ev : Evaluator)
    (batches : List MiniBatch) : ℚ :=
  ev (batches.flatMap (batchLabels lab)) ((batches.flatMap (batchLogits m)).map argmaxIdx)

/-- Loss `_mini_test_step` assigns to one mode: the loss of the final batch
the mode's loader yields (the `loss` variable after the batch loop). -/
def modeLastLoss (m : MModel) (lab : Labels) (lossFn : LossFn)
    (batches : List MiniBatch) : ℚ :=
  ((batches.map (batchLoss m lab lossFn)).getLast?).getD 0

/-- The split index sets `self.train_idx`, `self.valid_idx`, `self.test_idx`
obtained from `self.task.get_split()`. -/
structure SplitIdx where
  trainIdx : List Nat
  validIdx : List Nat
  testIdx : List Nat
deriving Repr, DecidableEq

/-- The mask selection of `_full_test_step`: mode names other than the three
recognized ones are silently skipped (`masks` receives no entry). -/
def modeMask (s : SplitIdx) (mo : String) : Option (List Nat) :=
  if mo == "train" then some s.trainIdx
  else if mo == "valid" then some s.validIdx
  else if mo == "test" then some s.testIdx
  else none

/-- Modelled from the spec: `self.task.evaluate(logits, mode=key)` is a
dataset/task service whose code is not part of this repository slice; per
section 4.5 the full-batch score is "computed per split by indexing into the
shared output and label vectors with that split's NodeIndexSet", i.e. the
evaluator applied to the split's labels and predicted classes. -/
def taskEvaluate (fm : FModel) (lab : Labels) (ev : Evaluator) (mask : List Nat) : ℚ :=
  ev (mask.map lab) ((mask.map fm).map argmaxIdx)

/-- `_full_test_step(modes)`: one shared full-graph forward pass `fm`, then
per recognized mode a score on the indexed logits and a loss
`self.loss_fn(logits[mask], self.labels[mask]).item()`. -/
def fullTestStep (fm : FModel) (lab : Labels) (lossFn : LossFn) (ev : Evaluator)
    (splits : SplitIdx) (modes : List String) :
    List (String × ℚ) × List (String × ℚ) :=
  let masks := modes.filterMap (fun mo => (modeMask splits mo).map (fun mk => (mo, mk)))
  (masks.map (fun p => (p.1, taskEvaluate fm lab ev p.2)),
   masks.map (fun p => (p.1, lossFn (p.2.map fm) (p.2.map lab))))

/-- Observable model state: the learnable parameters and the train/eval mode
bit toggled by `self.model.train()` / `self.model.eval()`. -/
structure ModelState (P : Type) where
  params : P
  training : Bool

/-- `_mini_test_step` with the model state made explicit: `self.model.eval()`
clears the training bit; the forward passes run under `torch.no_grad()` and
read but never write the parameters, so the result is computed from the
incoming parameters and the state returned carries them unchanged. -/
def miniTestStepS {P : Type} (mf : P → MModel) (lab : Labels) (lossFn : LossFn)
    (ev : Evaluator) (loaders : String → List MiniBatch) (modes : List String)
    (st : ModelState P) :
    (List (String × ℚ) × List (String × ℚ)) × ModelState P :=
  (miniTestStep (mf st.params) lab lossFn ev loaders modes, ⟨st.params, false⟩)

/-- `_full_test_step` with the model state made explicit (same conventions as
`miniTestStepS`). -/
def fullTestStepS {P : Type} (fmOf : P → FModel) (lab : Labels) (lossFn : LossFn)
    (ev : Evaluator) (splits : SplitIdx) (modes : List String)
    (st : ModelState P) :
    (List (String × ℚ) × List (String × ℚ)) × ModelState P :=
  (fullTestStep (fmOf st.params) lab lossFn ev splits modes, ⟨st.params, false⟩)

/-- `_mini_prediction_step`: traverse the prediction loader, appending each
batch's seed identifiers to `indices` and its logits to `y_predicts`, then
concatenate both in yield order. -/
def miniPredictionStep (mm : MModel) (batches : List MiniBatch) :
    List Nat × List (List ℚ) :=
  batches.foldl
    (fun (acc : List Nat × List (List ℚ)) b => (acc.1 ++ b.seeds, acc.2 ++ batchLogits mm b))
    ([], [])

/-- `_full_prediction_step`: one full-graph forward pass returning the logits
of every category node. -/
def fullPredictionStep (fm : FModel) (numNodes : Nat) : List (List ℚ) :=
  (List.range numNodes).map fm

/-- The prediction branch of `train` (lines 102-108): mini-batch mode returns
`_mini_prediction_step()`; full-batch mode returns the full logits paired
with `torch.arange(self.hg.num_nodes(self.category))`. -/
def trainPredictionPair (miniFlag : Bool) (mm : MModel) (fm : FModel)
    (predBatches : List MiniBatch) (numNodes : Nat) : List Nat × List (List ℚ) :=
  if miniFlag then miniPredictionStep mm predBatches
  else (List.range numNodes, fullPredictionStep fm numNodes)

/-- Modelled from the spec: the `EarlyStopping` utility (`openhgnn.utils`,
whose source is not part of this repository slice) per section 4.7: best loss
starts at positive infinity (`none`), the counter at 0; `bestEpoch` records
which epoch's parameters are held by the persisted best checkpoint; `stopped`
is the STOPPED state. -/
structure StopState where
  bestLoss : Option ℚ
  counter : Nat
  bestEpoch : Option Nat
  stopped : Bool
deriving Repr, DecidableEq

/-- Modelled from the spec (section 4.7): a validation loss improves when it
is strictly below the best seen so far (anything improves on infinity). -/
def improves : Option ℚ → ℚ → Bool
  | none, _ => true
  | some b, v => decide (v < b)

/-- Modelled from the spec (section 4.7): `stopper.loss_step(v, model)` at
epoch `e` — on improvement reset the counter and persist the current
parameters as the best checkpoint; otherwise increment the counter and
transition to STOPPED once it reaches the patience budget. -/
def lossStep (patience : Nat) (st : StopState) (v : ℚ) (e : Nat) : StopState :=
  if improves st.bestLoss v then
    { bestLoss := some v, counter := 0, bestEpoch := some e, stopped := false }
  else
    { st with counter := st.counter + 1, stopped := decide (patience ≤ st.counter + 1) }

/-- Configuration fields of the flow that the `train` control flow reads. -/
structure RunCfg where
  maxEpoch : Nat
  evaluateInterval : Nat
  patience : Nat
  miniBatchFlag : Bool
  testFlag : Bool
  predictionFlag : Bool
  isHGBn : Bool
deriving Repr, DecidableEq

/-- Observable events of one `train()` run, in program order. -/
inductive TrEv where
  | trainStep (epoch : Nat)
  | evalStep (epoch : Nat)
  | stopperCheck (epoch : Nat)
  | breakExit (epoch : Nat)
  | loadBest
  | predictStep
  | finalEval (modes : List String)
  | reportTest
  | saveResults
deriving Repr, DecidableEq

/-- The epoch loop of `train` (lines 78-99): every epoch runs a training
step; on epochs with `epoch % evaluate_interval == 0` it additionally runs
the evaluation step, consults `stopper.loss_step` on the validation loss, and
breaks out of the loop if the stopper reports early stop.  `valLoss e`
abstracts `losses['valid']` as evaluated at epoch `e`'s parameters.  The
first argument is the number of remaining epochs, the second the current
epoch index. -/
def trainLoop (cfg : RunCfg) (valLoss : Nat → ℚ) :
    Nat → Nat → StopState → List TrEv × StopState
  | 0, _, st => ([], st)
  | fuel + 1, e, st =>
    if e % cfg.evaluateInterval = 0 then
      let st' := lossStep cfg.patience st (valLoss e) e
      if st'.stopped then
        ([TrEv.trainStep e, TrEv.evalStep e, TrEv.stopperCheck e, TrEv.breakExit e], st')
      else
        let r := trainLoop cfg valLoss fuel (e + 1) st'
        (TrEv.trainStep e :: TrEv.evalStep e :: TrEv.stopperCheck e :: r.1, r.2)
    else
      let r := trainLoop cfg valLoss fuel (e + 1) st
      (TrEv.trainStep e :: r.1, r.2)

/-- The completion phase of `train` after `stopper.load_model` (lines
102-129): the prediction branch returns immediately; otherwise the test
branch evaluates and reports (with an extra results save on HGBn datasets). -/
def finalPhase (cfg : RunCfg) : List TrEv :=
  if cfg.predictionFlag then [TrEv.predictStep]
  else if cfg.testFlag then
    if cfg.isHGBn then [TrEv.finalEval ["valid"], TrEv.reportTest, TrEv.saveResults]
    else [TrEv.finalEval ["valid", "test"], TrEv.reportTest]
  else []

/-- Value `train()` returns on completion. -/
inductive Outcome where
  | predictions (ids : List Nat) (preds : List (List ℚ))
  | metricsHGB
  | metricsStd
  | noResult
deriving Repr, DecidableEq

/-- `train()` as a whole: the epoch loop from a fresh stopper, then
`stopper.load_model(self.model)`, then the completion phase.  Returns the
event trace, the final stopper state, and the returned value. -/
def trainRun (cfg : RunCfg) (valLoss : Nat → ℚ) (mm : MModel) (fm : FModel)
    (predBatches : List MiniBatch) (numNodes : Nat) :
    List TrEv × StopState × Outcome :=
  let r := trainLoop cfg valLoss cfg.maxEpoch 0 ⟨none, 0, none, false⟩
  let evs := r.1 ++ TrEv.loadBest :: finalPhase cfg
  let out :=
    if cfg.predictionFlag then
      let p := trainPredictionPair cfg.miniBatchFlag mm fm predBatches numNodes
      Outcome.predictions p.1 p.2
    else if cfg.testFlag then
      if cfg.isHGBn then Outcome.metricsHGB else Outcome.metricsStd
    else Outcome.noResult
  (evs, r.2, out)

/-- Constructor inputs relevant to the output-dimension reconciliation at
lines 34-36 of `__init__`. -/
structure InitConfig where
  outDim : Nat
  numClasses : Nat
  datasetHasOutDim : Bool
deriving Repr, DecidableEq

/-- Lines 34-36 of `__init__`: if the dataset lacks an `out_dim` attribute or
the configured `out_dim` disagrees with `num_classes`, log a warning and
overwrite `args.out_dim` with `num_classes`; the model at line 39 is then
built from the (possibly corrected) configuration.  Returns (warning emitted,
`out_dim` the model is built with).  The reconciliation has no failure
path. -/
def hanInitOutDim (c : InitConfig) : Bool × Nat :=
  if !c.datasetHasOutDim || c.outDim != c.numClasses then (true, c.numClasses)
  else (false, c.outDim)

/-- Events that can occur inside the epoch loop. -/
def isLoopEv : TrEv → Bool
  | TrEv.trainStep _ => true
  | TrEv.evalStep _ => true
  | TrEv.stopperCheck _ => true
  | TrEv.breakExit _ => true
  | _ => false

/-- Events of the completion phase: final evaluation, prediction, reporting
and result saving. -/
def isFinalEv : TrEv → Bool
  | TrEv.predictStep => true
  | TrEv.finalEval _ => true
  | TrEv.reportTest => true
  | TrEv.saveResults => true
  | _ => false

/-- Epochs at which the early stopper was consulted, in trace order. -/
def checkEpochs (evs : List TrEv) : List Nat :=
  evs.filterMap (fun ev => match ev with | TrEv.stopperCheck e => some e | _ => none)

/-- Epochs at which a training step ran, in trace order. -/
def trainEpochs (evs : List TrEv) : List Nat :=
  evs.filterMap (fun ev => match ev with | TrEv.trainStep e => some e | _ => none)

theorem modeLoop_fold (m : MModel) (lab : Labels) (lossFn : LossFn)
    (batches : List MiniBatch) (s0 : ModeLoopState) :
    batches.foldl (modeLoopBody m lab lossFn) s0 =
      (s0.1 + (batches.map (batchLoss m lab lossFn)).sum,
       s0.2.1 ++ batches.flatMap (batchLabels lab),
       s0.2.2.1 ++ batches.flatMap (batchLogits m),
       (batches.map (batchLoss m lab lossFn)).getLast?.getD s0.2.2.2) := by
  induction batches generalizing s0 with
  | nil => simp
  | cons b bs ih =>
    simp only [List.foldl_cons, ih, modeLoopBody, batchLoss, List.map_cons, List.sum_cons,
      List.flatMap_cons, List.getLast?_cons, List.append_assoc]
    simp [add_assoc]

theorem processMode_spec (m : MModel) (lab : Labels) (lossFn : LossFn) (ev : Evaluator)
    (loaders : String → List MiniBatch) (acc : EvalAcc) (mode : String) :
    processMode m lab lossFn ev loaders acc mode =
      { lossAll := (acc.lossAll + ((loaders mode).map (batchLoss m lab lossFn)).sum) /
          ((loaders mode).length : ℚ)
        metricDict := acc.metricDict ++ [(mode, modeScore m lab ev (loaders mode))]
        lossDict := acc.lossDict ++ [(mode, modeLastLoss m lab lossFn (loaders mode))] } := by
  simp [processMode, modeLoop_fold, modeScore, modeLastLoss]

theorem miniTestStep_fold (m : MModel) (lab : Labels) (lossFn : LossFn) (ev : Evaluator)
    (loaders : String → List MiniBatch) (modes : List String) (acc : EvalAcc) :
    (modes.foldl (processMode m lab lossFn ev loaders) acc).metricDict =
      acc.metricDict ++ modes.map (fun mo => (mo, modeScore m lab ev (loaders mo))) ∧
    (modes.foldl (processMode m lab lossFn ev loaders) acc).lossDict =
      acc.lossDict ++ modes.map (fun mo => (mo, modeLastLoss m lab lossFn (loaders mo))) := by
  induction modes generalizing acc with
  | nil => simp
  | cons mo mos ih =>
    simp only [List.foldl_cons, List.map_cons]
    rw [processMode_spec]
    constructor
    · rw [(ih _).1]
      simp
    · rw [(ih _).2]
      simp

/-- Central characterization of `_mini_test_step`: per requested mode, in
request order, the score is one evaluator call on the concatenated
predictions and the reported loss is the mode's final batch loss. -/
theorem miniTestStep_eq (m : MModel) (lab : Labels) (lossFn : LossFn) (ev : Evaluator)
    (loaders : String → List MiniBatch) (modes : List String) :
    miniTestStep m lab lossFn ev loaders modes =
      (modes.map (fun mo => (mo, modeScore m lab ev (loaders mo))),
       modes.map (fun mo => (mo, modeLastLoss m lab lossFn (loaders mo)))) := by
  obtain ⟨h1, h2⟩ := miniTestStep_fold m lab lossFn ev loaders modes ⟨0, [], []⟩
  simp [miniTestStep, h1, h2]

theorem miniPredictionStep_fold (mm : MModel) (batches : List MiniBatch)
    (acc : List Nat × List (List ℚ)) :
    batches.foldl
        (fun (acc : List Nat × List (List ℚ)) b =>
          (acc.1 ++ b.seeds, acc.2 ++ batchLogits mm b)) acc =
      (acc.1 ++ batches.flatMap MiniBatch.seeds,
       acc.2 ++ batches.flatMap (batchLogits mm)) := by
  induction batches generalizing acc with
  | nil => simp
  | cons b bs ih => simp [ih]

/-- `_mini_prediction_step` returns the seed identifiers and logits
concatenated across batches in yield order. -/
theorem miniPredictionStep_eq (mm : MModel) (batches : List MiniBatch) :
    miniPredictionStep mm batches =
      (batches.flatMap MiniBatch.seeds, batches.flatMap (batchLogits mm)) := by
  simp [miniPredictionStep, miniPredictionStep_fold]

theorem lossSeq_length {P : Type} (lossAt : P → MiniBatch → ℚ) (step : P → MiniBatch → P)
    (batches : List MiniBatch) (p : P) :
    (lossSeq lossAt step p batches).length = batches.length := by
  induction batches generalizing p with
  | nil => rfl
  | cons b bs ih => simp [lossSeq, ih]

theorem miniTrain_fold {P : Type} (lossAt : P → MiniBatch → ℚ) (step : P → MiniBatch → P)
    (batches : List MiniBatch) (a : ℚ) (p : P) :
    batches.foldl (fun (acc : ℚ × P) b => (acc.1 + lossAt acc.2 b, step acc.2 b)) (a, p) =
      (a + (lossSeq lossAt step p batches).sum, batches.foldl step p) := by
  induction batches generalizing a p with
  | nil => simp [lossSeq]
  | cons b bs ih => simp [lossSeq, ih, add_assoc]

theorem trainLoop_events (cfg : RunCfg) (valLoss : Nat → ℚ) (fuel : Nat) :
    ∀ (e : Nat) (st : StopState), ∀ ev ∈ (trainLoop cfg valLoss fuel e st).1,
      isLoopEv ev = true := by
  induction fuel with
  | zero => intro e st ev h; simp [trainLoop] at h
  | succ fuel ih =>
    intro e st ev h
    rw [trainLoop] at h
    by_cases he : e % cfg.evaluateInterval = 0
    · simp only [he, if_true] at h
      by_cases hs : (lossStep cfg.patience st (valLoss e) e).stopped
      · simp only [hs, if_true, List.mem_cons, List.not_mem_nil, or_false] at h
        rcases h with rfl | rfl | rfl | rfl <;> rfl
      · simp only [hs, if_false] at h
        rcases List.mem_cons.mp h with rfl | h
        · rfl
        rcases List.mem_cons.mp h with rfl | h
        · rfl
        rcases List.mem_cons.mp h with rfl | h
        · rfl
        exact ih _ _ ev h
    · simp only [he, if_false] at h
      rcases List.mem_cons.mp h with rfl | h
      · rfl
      exact ih _ _ ev h

@[simp]
theorem checkEpochs_nil : checkEpochs [] = [] := rfl

@[simp]
theorem checkEpochs_cons_train (e : Nat) (l : List TrEv) :
    checkEpochs (TrEv.trainStep e :: l) = checkEpochs l := rfl

@[simp]
theorem checkEpochs_cons_eval (e : Nat) (l : List TrEv) :
    checkEpochs (TrEv.evalStep e :: l) = checkEpochs l := rfl

@[simp]
theorem checkEpochs_cons_check (e : Nat) (l : List TrEv) :
    checkEpochs (TrEv.stopperCheck e :: l) = e :: checkEpochs l := rfl

@[simp]
theorem checkEpochs_cons_brk (e : Nat) (l : List TrEv) :
    checkEpochs (TrEv.breakExit e :: l) = checkEpochs l := rfl

@[simp]
theorem trainEpochs_nil : trainEpochs [] = [] := rfl

@[simp]
theorem trainEpochs_cons_train (e : Nat) (l : List TrEv) :
    trainEpochs (TrEv.trainStep e :: l) = e :: trainEpochs l := rfl

@[simp]
theorem trainEpochs_cons_eval (e : Nat) (l : List TrEv) :
    trainEpochs (TrEv.evalStep e :: l) = trainEpochs l := rfl

@[simp]
theorem trainEpochs_cons_check (e : Nat) (l : List TrEv) :
    trainEpochs (TrEv.stopperCheck e :: l) = trainEpochs l := rfl

@[simp]
theorem trainEpochs_cons_brk (e : Nat) (l : List TrEv) :
    trainEpochs (TrEv.breakExit e :: l) = trainEpochs l := rfl

theorem checkEpochs_append (a b : List TrEv) :
    checkEpochs (a ++ b) = checkEpochs a ++ checkEpochs b :=
  List.filterMap_append a b _

theorem trainEpochs_append (a b : List TrEv) :
    trainEpochs (a ++ b) = trainEpochs a ++ trainEpochs b :=
  List.filterMap_append a b _

theorem checkEpochs_finalPhase (cfg : RunCfg) :
    checkEpochs (TrEv.loadBest :: finalPhase cfg) = [] := by
  unfold finalPhase
  split_ifs <;> rfl

theorem trainEpochs_finalPhase (cfg : RunCfg) :
    trainEpochs (TrEv.loadBest :: finalPhase cfg) = [] := by
  unfold finalPhase
  split_ifs <;> rfl

theorem trainLoop_epochs (cfg : RunCfg) (valLoss : Nat → ℚ) (fuel : Nat) :
    ∀ (e : Nat) (st : StopState),
      checkEpochs (trainLoop cfg valLoss fuel e st).1 =
        (trainEpochs (trainLoop cfg valLoss fuel e st).1).filter
          (fun x => x % cfg.evaluateInterval == 0) ∧
      ((trainEpochs (trainLoop cfg valLoss fuel e st).1).length < fuel →
        (trainLoop cfg valLoss fuel e st).2.stopped = true) := by
  induction fuel with
  | zero => intro e st; simp [trainLoop]
  | succ fuel ih =>
    intro e st
    rw [trainLoop]
    by_cases he : e % cfg.evaluateInterval = 0
    · rw [if_pos he]
      by_cases hs : (lossStep cfg.patience st (valLoss e) e).stopped
      · rw [if_pos hs]
        refine ⟨?_, fun _ => hs⟩
        simp [he]
      · rw [if_neg hs]
        refine ⟨?_, ?_⟩
        · simp [he, (ih (e + 1) (lossStep cfg.patience st (valLoss e) e)).1]
        · intro hlen
          apply (ih (e + 1) (lossStep cfg.patience st (valLoss e) e)).2
          simpa using hlen
    · rw [if_neg he]
      refine ⟨?_, ?_⟩
      · simp [he, (ih (e + 1) st).1]
      · intro hlen
        apply (ih (e + 1) st).2
        simpa using hlen

theorem finalPhase_events (cfg : RunCfg) : ∀ ev ∈ finalPhase cfg, isFinalEv ev = true := by
  intro ev h
  unfold finalPhase at h
  split_ifs at h
  · rw [List.mem_singleton] at h
    subst h; rfl
  · rcases List.mem_cons.mp h with rfl | h
    · rfl
    rcases List.mem_cons.mp h with rfl | h
    · rfl
    rw [List.mem_singleton] at h
    subst h; rfl
  · rcases List.mem_cons.mp h with rfl | h
    · rfl
    rw [List.mem_singleton] at h
    subst h; rfl
  · simp at h

theorem trainRun_trace (cfg : RunCfg) (valLoss : Nat → ℚ) (mm : MModel) (fm : FModel)
    (pb : List MiniBatch) (nn : Nat) :
    (trainRun cfg valLoss mm fm pb nn).1 =
      (trainLoop cfg valLoss cfg.maxEpoch 0 ⟨none, 0, none, false⟩).1 ++
        TrEv.loadBest :: finalPhase cfg := rfl

theorem trainRun_not_mem (cfg : RunCfg) (valLoss : Nat → ℚ) (mm : MModel) (fm : FModel)
    (pb : List MiniBatch) (nn : Nat) (ev : TrEv) (h1 : isLoopEv ev = false)
    (h2 : ev ≠ TrEv.loadBest) (h3 : ev ∉ finalPhase cfg) :
    ev ∉ (trainRun cfg valLoss mm fm pb nn).1 := by
  rw [trainRun_trace]
  intro hm
  rcases List.mem_append.mp hm with hm | hm
  · rw [trainLoop_events cfg valLoss _ _ _ ev hm] at h1
    exact Bool.noConfusion h1
  · rcases List.mem_cons.mp hm with rfl | hm
    · exact h2 rfl
    · exact h3 hm

theorem zip_flatMap_seeds (mm : MModel) (batches : List MiniBatch) :
    (batches.flatMap MiniBatch.seeds).zip (batches.flatMap (batchLogits mm)) =
      batches.flatMap (fun b => b.seeds.map (fun s => (s, mm b.seeds s))) := by
  induction batches with
  | nil => rfl
  | cons b bs ih =>
    simp only [List.flatMap_cons]
    rw [List.zip_append (by simp [batchLogits]), ih, batchLogits,
      ← List.map_prod_left_eq_zip]

/-- A concrete model for counterexample runs: node 0 scores 1, others 3. -/
def cxMModel : MModel := fun _ n => [if n = 0 then (1 : ℚ) else 3]

/-- Concrete labels: everything is class 0. -/
def cxLab : Labels := fun _ => 0

/-- A concrete loss: the sum of all logit entries. -/
def cxLossFn : LossFn := fun logits _ => (logits.flatMap id).sum

/-- A concrete evaluator returning 0. -/
def cxEv : Evaluator := fun _ _ => 0

/-- Concrete loaders: the valid split {0, 1} in two singleton batches. -/
def cxLoaders : String → List MiniBatch := fun _ => [⟨[0]⟩, ⟨[1]⟩]

/-- The same two batches in the opposite yield order (another admissible
shuffle of the same split). -/
def cxLoadersRev : String → List MiniBatch := fun _ => [⟨[1]⟩, ⟨[0]⟩]

/-- C1: evidence of the code bug.  On a valid split traversed as two batches
with losses 1 and 3, `_mini_test_step` reports 3 — the final batch's loss
(`loss_dict[mode] = loss`) — while the unweighted per-split mean of the
batch losses is (1 + 3) / 2 = 2 ≠ 3, contradicting the claimed (and
spec-intended) per-split mean.  The running mean accumulator `loss_all` is
computed but never stored in `loss_dict`. -/
theorem mini_eval_reports_last_batch_loss_not_mean :
    (cxLoaders "valid").map (batchLoss cxMModel cxLab cxLossFn) = [1, 3] ∧
    (miniTestStep cxMModel cxLab cxLossFn cxEv cxLoaders ["valid"]).2 = [("valid", 3)] ∧
    ((1 : ℚ) + 3) / 2 ≠ 3 := by
  refine ⟨?_, ?_, by norm_num⟩
  · simp [batchLoss, batchLogits, batchLabels, cxMModel, cxLossFn, cxLab, cxLoaders]
  · rw [miniTestStep_eq]
    simp [modeLastLoss, batchLoss, batchLogits, batchLabels, cxMModel, cxLossFn, cxLab,
      cxLoaders]

/-- C2: the mini-batch training step returns exactly the unweighted
arithmetic mean of the per-batch losses — the sum of the per-batch loss
sequence divided by the batch count — for any parameter evolution, and the
returned value depends only on the loss sequence, not on the batches' seed
sets or sizes. -/
theorem mini_train_loss_is_unweighted_mean {P : Type} (lossAt : P → MiniBatch → ℚ)
    (step : P → MiniBatch → P) (p0 : P) (batches : List MiniBatch)
    (_h : batches ≠ []) :
    (miniTrainStep lossAt step p0 batches).1 =
      (lossSeq lossAt step p0 batches).sum / ((batches.length : ℚ)) ∧
    (lossSeq lossAt step p0 batches).length = batches.length ∧
    (∀ (Q : Type) (lossAt' : Q → MiniBatch → ℚ) (step' : Q → MiniBatch → Q) (q0 : Q)
        (batches' : List MiniBatch),
      lossSeq lossAt' step' q0 batches' = lossSeq lossAt step p0 batches →
      (miniTrainStep lossAt' step' q0 batches').1 = (miniTrainStep lossAt step p0 batches).1) := by
  refine ⟨?_, lossSeq_length lossAt step batches p0, ?_⟩
  · simp [miniTrainStep, miniTrain_fold]
  · intro Q lossAt' step' q0 batches' hseq
    have hlen : batches'.length = batches.length := by
      rw [← lossSeq_length lossAt' step' batches' q0, ← lossSeq_length lossAt step batches p0,
        hseq]
    simp [miniTrainStep, miniTrain_fold, hseq, hlen]

/-- Witness for C2 at a concrete input: two batches of unequal seed counts
with per-batch losses 1 and 2; the returned epoch loss is (1 + 2) / 2. -/
theorem mini_train_loss_is_unweighted_mean_witness :
    ([⟨[0]⟩, ⟨[5, 6]⟩] : List MiniBatch) ≠ [] ∧
    (miniTrainStep (fun (p : ℚ) _ => p) (fun p _ => p + 1) 1 [⟨[0]⟩, ⟨[5, 6]⟩]).1 = 3 / 2 := by
  constructor
  · simp
  · have h := (mini_train_loss_is_unweighted_mean (fun (p : ℚ) _ => p) (fun p _ => p + 1) 1
      [⟨[0]⟩, ⟨[5, 6]⟩] (by simp)).1
    rw [h]
    norm_num [lossSeq]

/-- C5: in mini-batch evaluation each requested split's score is produced by
exactly one evaluator invocation, applied to the concatenation — in
batch-yield order — of that split's per-batch labels and per-batch
predictions (argmax over the concatenated logits), never by averaging
per-batch scores. -/
theorem mini_eval_score_once_on_concatenation (m : MModel) (lab : Labels)
    (lossFn : LossFn) (ev : Evaluator) (loaders : String → List MiniBatch)
    (modes : List String) :
    (miniTestStep m lab lossFn ev loaders modes).1 =
      modes.map (fun mo => (mo,
        ev ((loaders mo).flatMap (batchLabels lab))
          (((loaders mo).flatMap (batchLogits m)).map argmaxIdx))) := by
  rw [miniTestStep_eq]
  simp [modeScore]

/-- C6 counterexample: two traversals of the same valid split {0, 1} that
differ only in batch order — both admissible yields of the `shuffle=True`
loader — give different loss mappings (3 vs 1, the respective final batch's
loss), so two successive mini-batch evaluation calls with no intervening
training are not guaranteed identical results as the claim states. -/
theorem mini_eval_differs_across_shuffle_orders :
    List.Perm ((cxLoaders "valid").flatMap MiniBatch.seeds)
      ((cxLoadersRev "valid").flatMap MiniBatch.seeds) ∧
    (miniTestStep cxMModel cxLab cxLossFn cxEv cxLoaders ["valid"]).2 = [("valid", 3)] ∧
    (miniTestStep cxMModel cxLab cxLossFn cxEv cxLoadersRev ["valid"]).2 = [("valid", 1)] ∧
    miniTestStep cxMModel cxLab cxLossFn cxEv cxLoaders ["valid"] ≠
      miniTestStep cxMModel cxLab cxLossFn cxEv cxLoadersRev ["valid"] := by
  have h1 : (miniTestStep cxMModel cxLab cxLossFn cxEv cxLoaders ["valid"]).2 =
      [("valid", 3)] := by
    rw [miniTestStep_eq]
    simp [modeLastLoss, batchLoss, batchLogits, batchLabels, cxMModel, cxLossFn, cxLab,
      cxLoaders]
  have h2 : (miniTestStep cxMModel cxLab cxLossFn cxEv cxLoadersRev ["valid"]).2 =
      [("valid", 1)] := by
    rw [miniTestStep_eq]
    simp [modeLastLoss, batchLoss, batchLogits, batchLabels, cxMModel, cxLossFn, cxLab,
      cxLoadersRev]
  refine ⟨by decide, h1, h2, fun hc => ?_⟩
  have := congrArg Prod.snd hc
  rw [h1, h2] at this
  have h3 : (3 : ℚ) = 1 := congrArg Prod.snd (List.head_eq_of_cons_eq this)
  norm_num at h3

/-- C6 amended: evaluation alone mutates no model parameters, in either
mode: re-running the evaluation step on the state the first call returned,
with the same batch traversals, yields exactly the first call's loss and
score mappings, and the parameters after evaluation equal the parameters
before.  (Equality of two successive calls is guaranteed only up to the
traversal: the shuffled loaders may reorder batches between calls, which —
per the counterexample — changes the reported mini-batch losses.) -/
theorem eval_step_parameter_preserving_and_reproducible {P : Type} (mf : P → MModel)
    (fmOf : P → FModel) (lab : Labels) (lossFn : LossFn) (ev : Evaluator)
    (loaders : String → List MiniBatch) (splits : SplitIdx) (modes : List String)
    (st : ModelState P) :
    (miniTestStepS mf lab lossFn ev loaders modes
        (miniTestStepS mf lab lossFn ev loaders modes st).2).1 =
      (miniTestStepS mf lab lossFn ev loaders modes st).1 ∧
    (miniTestStepS mf lab lossFn ev loaders modes st).2.params = st.params ∧
    (fullTestStepS fmOf lab lossFn ev splits modes
        (fullTestStepS fmOf lab lossFn ev splits modes st).2).1 =
      (fullTestStepS fmOf lab lossFn ev splits modes st).1 ∧
    (fullTestStepS fmOf lab lossFn ev splits modes st).2.params = st.params :=
  ⟨rfl, rfl, rfl, rfl⟩

/-- C8: when one batch covers the whole split — the single batch's seeds are
exactly the split's index set and the model's output on the sampled block
agrees with its full-graph output — the mini-batch evaluation step returns
exactly the full-batch evaluation step's loss value and score value for that
split. -/
theorem single_batch_mini_equals_full (fm : FModel) (mm : MModel) (lab : Labels)
    (lossFn : LossFn) (ev : Evaluator) (splits : SplitIdx)
    (loaders : String → List MiniBatch) (mo : String) (split : List Nat)
    (hmask : modeMask splits mo = some split)
    (hload : loaders mo = [⟨split⟩])
    (hmm : ∀ n, mm split n = fm n) :
    miniTestStep mm lab lossFn ev loaders [mo] = fullTestStep fm lab lossFn ev splits [mo] := by
  have hmap : split.map (mm split) = split.map fm := List.map_congr_left (fun n _ => hmm n)
  rw [miniTestStep_eq]
  simp [fullTestStep, hmask, hload, modeScore, modeLastLoss, batchLoss, batchLogits,
    batchLabels, taskEvaluate, hmap]

/-- Witness for C8 at a concrete input: a valid split [0] covered by one
batch, a model whose block output equals its full-graph output. -/
theorem single_batch_mini_equals_full_witness :
    modeMask ⟨[], [0], []⟩ "valid" = some [0] ∧
    (fun (_ : String) => [(⟨[0]⟩ : MiniBatch)]) "valid" = [⟨[0]⟩] ∧
    miniTestStep (fun _ _ => [(1 : ℚ)]) (fun _ => 0) (fun _ _ => 5) (fun _ _ => 7)
        (fun _ => [⟨[0]⟩]) ["valid"] =
      fullTestStep (fun _ => [(1 : ℚ)]) (fun _ => 0) (fun _ _ => 5) (fun _ _ => 7)
        ⟨[], [0], []⟩ ["valid"] :=
  ⟨rfl, rfl,
    single_batch_mini_equals_full (fun _ => [(1 : ℚ)]) (fun _ _ => [(1 : ℚ)]) (fun _ => 0)
      (fun _ _ => 5) (fun _ _ => 7) ⟨[], [0], []⟩ (fun _ => [⟨[0]⟩]) "valid" [0]
      rfl rfl (fun _ => rfl)⟩

/-- C7: prediction alignment.  In mini-batch mode the returned identifier and
prediction lists have equal length and are pointwise aligned (their zip is
the per-batch pairing of each seed with its logit row, concatenated in yield
order), and — given the sampler partition property, that the concatenated
seeds are a permutation of the duplicate-free prediction index set — every
configured prediction identifier appears exactly once.  In full-batch mode
the identifiers are exactly `torch.arange(num_nodes)` — the full implicit
range — again with equal lengths. -/
theorem prediction_identifier_alignment (mm : MModel) (fm : FModel)
    (predBatches : List MiniBatch) (numNodes : Nat) (predIdx : List Nat)
    (hpart : List.Perm (predBatches.flatMap MiniBatch.seeds) predIdx)
    (hnodup : predIdx.Nodup) :
    (trainPredictionPair true mm fm predBatches numNodes).1.length =
      (trainPredictionPair true mm fm predBatches numNodes).2.length ∧
    (∀ x ∈ predIdx, (trainPredictionPair true mm fm predBatches numNodes).1.count x = 1) ∧
    (trainPredictionPair true mm fm predBatches numNodes).1.zip
        (trainPredictionPair true mm fm predBatches numNodes).2 =
      predBatches.flatMap (fun b => b.seeds.map (fun s => (s, mm b.seeds s))) ∧
    (trainPredictionPair false mm fm predBatches numNodes).1 = List.range numNodes ∧
    (trainPredictionPair false mm fm predBatches numNodes).1.length =
      (trainPredictionPair false mm fm predBatches numNodes).2.length := by
  have hmini : trainPredictionPair true mm fm predBatches numNodes =
      (predBatches.flatMap MiniBatch.seeds, predBatches.flatMap (batchLogits mm)) := by
    simp [trainPredictionPair, miniPredictionStep_eq]
  refine ⟨?_, ?_, ?_, rfl, ?_⟩
  · rw [hmini]
    simp only [List.length_flatMap]
    refine congrArg List.sum (List.map_congr_left fun b _ => ?_)
    simp [batchLogits]
  · intro x hx
    rw [hmini]
    simp only
    rw [hpart.count_eq x]
    exact List.count_eq_one_of_mem hnodup hx
  · rw [hmini]
    exact zip_flatMap_seeds mm predBatches
  · simp [trainPredictionPair, fullPredictionStep]

/-- Witness for C7 at a concrete input: prediction split {0, 1, 2} yielded as
batches [1, 0] and [2]. -/
theorem prediction_identifier_alignment_witness :
    List.Perm (([⟨[1, 0]⟩, ⟨[2]⟩] : List MiniBatch).flatMap MiniBatch.seeds) [0, 1, 2] ∧
    ([0, 1, 2] : List Nat).Nodup ∧
    (trainPredictionPair true (fun _ _ => []) (fun _ => []) [⟨[1, 0]⟩, ⟨[2]⟩] 3).1.length =
      (trainPredictionPair true (fun _ _ => []) (fun _ => []) [⟨[1, 0]⟩, ⟨[2]⟩] 3).2.length ∧
    (∀ x ∈ ([0, 1, 2] : List Nat),
      (trainPredictionPair true (fun _ _ => []) (fun _ => []) [⟨[1, 0]⟩, ⟨[2]⟩] 3).1.count x = 1) :=
  ⟨by decide, by decide,
    (prediction_identifier_alignment (fun _ _ => []) (fun _ => []) [⟨[1, 0]⟩, ⟨[2]⟩] 3
      [0, 1, 2] (by decide) (by decide)).1,
    (prediction_identifier_alignment (fun _ _ => []) (fun _ => []) [⟨[1, 0]⟩, ⟨[2]⟩] 3
      [0, 1, 2] (by decide) (by decide)).2.1⟩

/-- C9: whenever the configured output dimensionality disagrees with the
dataset's number of classes, construction does not fail: the reconciliation
at lines 34-36 emits the warning and the model is built with `out_dim`
overwritten to `num_classes`. -/
theorem out_dim_mismatch_autocorrected (c : InitConfig)
    (h : c.outDim ≠ c.numClasses) :
    hanInitOutDim c = (true, c.numClasses) := by
  have hb : (c.outDim != c.numClasses) = true := by
    simp [bne_iff_ne, h]
  simp [hanInitOutDim, hb]

/-- Witness for C9 at a concrete input: declared out_dim 7 against 3
classes. -/
theorem out_dim_mismatch_autocorrected_witness :
    (⟨7, 3, true⟩ : InitConfig).outDim ≠ (⟨7, 3, true⟩ : InitConfig).numClasses ∧
    hanInitOutDim ⟨7, 3, true⟩ = (true, 3) :=
  ⟨by decide, out_dim_mismatch_autocorrected ⟨7, 3, true⟩ (by decide)⟩

/-- C3 counterexample: with `evaluate_interval = 2` and two epochs, the run
executes training steps at epochs 0 and 1 but consults the early stopper
only at epoch 0 — not once at every epoch boundary as the claim states. -/
theorem stopper_not_consulted_every_epoch :
    trainEpochs (trainRun ⟨2, 2, 5, false, false, false, false⟩ (fun _ => 1)
        (fun _ _ => []) (fun _ => []) [] 0).1 = [0, 1] ∧
    checkEpochs (trainRun ⟨2, 2, 5, false, false, false, false⟩ (fun _ => 1)
        (fun _ _ => []) (fun _ => []) [] 0).1 = [0] ∧
    ([0] : List Nat) ≠ [0, 1] := by
  refine ⟨?_, ?_, by decide⟩ <;> rfl

/-- C3 amended: the early stopper is consulted exactly once per evaluation
epoch — the epochs `e` with `e % evaluate_interval == 0`, in order — at the
epoch boundary after that epoch's training step returns (the consultation is
an epoch-level event, never inside the batch loop), and the stopper's
STOPPED state is the only early-exit path: if fewer than `max_epoch` training
steps ran, the final stopper state is STOPPED. -/
theorem stopper_consulted_once_per_evaluation_epoch (cfg : RunCfg) (valLoss : Nat → ℚ)
    (mm : MModel) (fm : FModel) (pb : List MiniBatch) (nn : Nat)
    (_h : 0 < cfg.evaluateInterval) :
    checkEpochs (trainRun cfg valLoss mm fm pb nn).1 =
      (trainEpochs (trainRun cfg valLoss mm fm pb nn).1).filter
        (fun x => x % cfg.evaluateInterval == 0) ∧
    ((trainEpochs (trainRun cfg valLoss mm fm pb nn).1).length < cfg.maxEpoch →
      (trainRun cfg valLoss mm fm pb nn).2.1.stopped = true) := by
  have hloop := trainLoop_epochs cfg valLoss cfg.maxEpoch 0 ⟨none, 0, none, false⟩
  constructor
  · rw [trainRun_trace, checkEpochs_append, trainEpochs_append, checkEpochs_finalPhase,
      trainEpochs_finalPhase, List.append_nil, List.append_nil, hloop.1]
  · intro hlen
    have hst : (trainRun cfg valLoss mm fm pb nn).2.1 =
        (trainLoop cfg valLoss cfg.maxEpoch 0 ⟨none, 0, none, false⟩).2 := rfl
    rw [hst]
    apply hloop.2
    rw [trainRun_trace, trainEpochs_append, trainEpochs_finalPhase, List.append_nil] at hlen
    exact hlen

/-- Witness for the amended C3 at a concrete input: one epoch with
`evaluate_interval = 1`. -/
theorem stopper_consulted_once_per_evaluation_epoch_witness :
    0 < (⟨1, 1, 1, false, false, false, false⟩ : RunCfg).evaluateInterval ∧
    checkEpochs (trainRun ⟨1, 1, 1, false, false, false, false⟩ (fun _ => 1)
        (fun _ _ => []) (fun _ => []) [] 0).1 =
      (trainEpochs (trainRun ⟨1, 1, 1, false, false, false, false⟩ (fun _ => 1)
          (fun _ _ => []) (fun _ => []) [] 0).1).filter
        (fun x => x % (⟨1, 1, 1, false, false, false, false⟩ : RunCfg).evaluateInterval == 0) :=
  ⟨by decide,
    (stopper_consulted_once_per_evaluation_epoch ⟨1, 1, 1, false, false, false, false⟩
      (fun _ => 1) (fun _ _ => []) (fun _ => []) [] 0 (by decide)).1⟩

/-- C4: whatever way the epoch loop ends — by the stopper's STOPPED
transition or by exhausting `max_epoch` — the run trace splits as loop
events, then the single `stopper.load_model` checkpoint restoration, then
the completion phase: every final evaluation, prediction, report and
result-saving event comes strictly after the best-checkpoint restoration. -/
theorem best_checkpoint_restored_before_final_phase (cfg : RunCfg) (valLoss : Nat → ℚ)
    (mm : MModel) (fm : FModel) (pb : List MiniBatch) (nn : Nat)
    (_h : 0 < cfg.evaluateInterval) :
    ∃ pre post,
      (trainRun cfg valLoss mm fm pb nn).1 = pre ++ TrEv.loadBest :: post ∧
      (∀ ev ∈ pre, isLoopEv ev = true) ∧
      (∀ ev ∈ post, isFinalEv ev = true) ∧
      TrEv.loadBest ∉ pre ∧ TrEv.loadBest ∉ post := by
  refine ⟨(trainLoop cfg valLoss cfg.maxEpoch 0 ⟨none, 0, none, false⟩).1, finalPhase cfg,
    trainRun_trace cfg valLoss mm fm pb nn,
    trainLoop_events cfg valLoss cfg.maxEpoch 0 ⟨none, 0, none, false⟩,
    finalPhase_events cfg, ?_, ?_⟩
  · intro hmem
    have hc := trainLoop_events cfg valLoss cfg.maxEpoch 0 ⟨none, 0, none, false⟩
      TrEv.loadBest hmem
    exact Bool.noConfusion hc
  · intro hmem
    have hc := finalPhase_events cfg TrEv.loadBest hmem
    exact Bool.noConfusion hc

/-- Witness for C4 at a concrete input: one epoch, no flags. -/
theorem best_checkpoint_restored_before_final_phase_witness :
    0 < (⟨1, 1, 1, false, false, false, false⟩ : RunCfg).evaluateInterval ∧
    ∃ pre post,
      (trainRun ⟨1, 1, 1, false, false, false, false⟩ (fun _ => 1) (fun _ _ => [])
          (fun _ => []) [] 0).1 = pre ++ TrEv.loadBest :: post ∧
      (∀ ev ∈ pre, isLoopEv ev = true) ∧
      (∀ ev ∈ post, isFinalEv ev = true) ∧
      TrEv.loadBest ∉ pre ∧ TrEv.loadBest ∉ post :=
  ⟨by decide, best_checkpoint_restored_before_final_phase
    ⟨1, 1, 1, false, false, false, false⟩ (fun _ => 1) (fun _ _ => []) (fun _ => []) [] 0
    (by decide)⟩

/-- C10: when both `prediction_flag` and `test_flag` are set, `train`
returns the prediction (identifiers, predictions) pair via the prediction
branch, and the test-reporting path never executes: the trace contains no
final test evaluation, no test report, and no results save. -/
theorem prediction_supersedes_test_reporting (cfg : RunCfg) (valLoss : Nat → ℚ)
    (mm : MModel) (fm : FModel) (pb : List MiniBatch) (nn : Nat)
    (hp : cfg.predictionFlag = true) (_ht : cfg.testFlag = true) :
    (trainRun cfg valLoss mm fm pb nn).2.2 =
      Outcome.predictions (trainPredictionPair cfg.miniBatchFlag mm fm pb nn).1
        (trainPredictionPair cfg.miniBatchFlag mm fm pb nn).2 ∧
    TrEv.reportTest ∉ (trainRun cfg valLoss mm fm pb nn).1 ∧
    TrEv.saveResults ∉ (trainRun cfg valLoss mm fm pb nn).1 ∧
    ∀ ms, TrEv.finalEval ms ∉ (trainRun cfg valLoss mm fm pb nn).1 := by
  have hfp : finalPhase cfg = [TrEv.predictStep] := by simp [finalPhase, hp]
  refine ⟨by simp [trainRun, hp], ?_, ?_, ?_⟩
  · exact trainRun_not_mem cfg valLoss mm fm pb nn TrEv.reportTest rfl
      (fun hc => TrEv.noConfusion hc) (by simp [hfp])
  · exact trainRun_not_mem cfg valLoss mm fm pb nn TrEv.saveResults rfl
      (fun hc => TrEv.noConfusion hc) (by simp [hfp])
  · intro ms
    exact trainRun_not_mem cfg valLoss mm fm pb nn (TrEv.finalEval ms) rfl
      (fun hc => TrEv.noConfusion hc) (by simp [hfp])

/-- Witness for C10 at a concrete input: both flags set, zero epochs. -/
theorem prediction_supersedes_test_reporting_witness :
    (⟨0, 1, 1, false, true, true, false⟩ : RunCfg).predictionFlag = true ∧
    (⟨0, 1, 1, false, true, true, false⟩ : RunCfg).testFlag = true ∧
    (trainRun ⟨0, 1, 1, false, true, true, false⟩ (fun _ => 1) (fun _ _ => [])
        (fun _ => []) [] 0).2.2 =
      Outcome.predictions (trainPredictionPair false (fun _ _ => []) (fun _ => []) [] 0).1
        (trainPredictionPair false (fun _ _ => []) (fun _ => []) [] 0).2 ∧
    TrEv.reportTest ∉ (trainRun ⟨0, 1, 1, false, true, true, false⟩ (fun _ => 1)
        (fun _ _ => []) (fun _ => []) [] 0).1 :=
  ⟨rfl, rfl,
    (prediction_supersedes_test_reporting ⟨0, 1, 1, false, true, true, false⟩ (fun _ => 1)
      (fun _ _ => []) (fun _ => []) [] 0 rfl rfl).1,
    (prediction_supersedes_test_reporting ⟨0, 1, 1, false, true, true, false⟩ (fun _ => 1)
      (fun _ _ => []) (fun _ => []) [] 0 rfl rfl).2.1⟩

end HanTrainer
